import Mathlib

/-!
# Verification of tinyparam (src/tinyparam.c, src/tinyparam.h)

tinyparam is a small thread-safe key/value parameter store backed by a JSON
file.  This development is a shallow embedding of its four operations
(`tp_open`, `tp_get`, `tp_set`, `tp_close`) and proofs about the behaviour
claimed by the specification.

Modelling choices (each definition's doc comment names the C code it embeds):

* cJSON nodes are modelled by `JNode`: the code only ever reads a node's
  `type` tag (compared against `cJSON_Object`), its `valuestring` field, and
  its named children (via `cJSON_GetObjectItem`), so a node is a triple of
  those three observations.  Child lookup is modelled as first match by name.
* Allocation and I/O outcomes are inputs (`GetEnv`, `SetEnv`, `OpenEnv`):
  each boolean tells whether the corresponding C call succeeds, so every
  error path of the source is a reachable branch of the model.
* The C functions return `NULL` / `-1` on every failure, distinguished only
  by which exit branch (log message) is taken.  The model tags each exit
  branch with the spec's error taxonomy (`TpErr`, `OpenErr`).
* The single on-disk file and its `<path>.tmp` sibling are a `Disk` record;
  `cJSON_Print` is modelled by the executable serializer `jsonPrint` (its
  exact output format is irrelevant to every property proved here; only
  which tree got serialized matters).  A short `fwrite` leaves some proper
  prefix of the buffer in the temp file; the model uses the half-length
  prefix as a concrete representative.
* `pthread_mutex_lock`/`unlock` calls are recorded as an event trace
  (`LockEv`) so lock discipline is provable.
-/

/-- One lock event: `pthread_mutex_lock` or `pthread_mutex_unlock` on the
store's mutex (`h->lock`). -/
inductive LockEv : Type where
  | lock : LockEv
  | unlock : LockEv
deriving DecidableEq, Repr

/-- A cJSON node as observed by tinyparam.c: `isObject` is the test
`node->type == cJSON_Object`, `valuestring` is the `valuestring` field
(`none` models the NULL pointer), `children` are the named child nodes
reachable by `cJSON_GetObjectItem`.  Non-object nodes produced by the cJSON
parser have no named children, but the type does not force that, matching
the C struct. -/
inductive JNode : Type where
  | mk : Bool → Option String → List (String × JNode) → JNode

/-- The `type == cJSON_Object` observation of a node. -/
def JNode.isObject : JNode → Bool
  | JNode.mk b _ _ => b

/-- The `valuestring` field of a node (`none` models NULL). -/
def JNode.valuestring : JNode → Option String
  | JNode.mk _ v _ => v

/-- The named children of a node. -/
def JNode.children : JNode → List (String × JNode)
  | JNode.mk _ _ c => c

/-- Replace a node's `valuestring`, keeping type tag and children: models
`free(cur->valuestring); cur->valuestring = strdup(value)` (or `= NULL`). -/
def JNode.withVs : JNode → Option String → JNode
  | JNode.mk b _ c, v => JNode.mk b v c

/-- `cJSON_GetObjectItem(n, name)`: the first child of `n` whose name
matches, or `none` (NULL). -/
def getObjectItem (n : JNode) (name : String) : Option JNode :=
  (n.children.find? (fun kv => kv.1 == name)).map (fun kv => kv.2)

/-- Helper for `segs`: walk the character list accumulating the current
token (reversed); a `'.'` ends the token, empty tokens are dropped.  This is
the token sequence `strtok_r(str, ".", &p)` yields in the C code (strtok
never returns empty tokens: runs of delimiters collapse). -/
def segsAux : List Char → List Char → List String
  | [], acc => if acc.isEmpty then [] else [String.mk acc.reverse]
  | c :: rest, acc =>
    if c = '.' then
      if acc.isEmpty then segsAux rest [] else String.mk acc.reverse :: segsAux rest []
    else segsAux rest (c :: acc)

/-- The nonempty dot-separated segments of a key, in order: the exact token
sequence produced by the `strtok_r(str, ".", &p)` loop of tp_get/tp_set. -/
def segs (key : String) : List String :=
  segsAux key.data []

/-- `strchr(str, '.') != NULL`: whether the key contains a dot, the test
that selects the single-level vs. multi-level branch in tp_get/tp_set. -/
def hasDot (key : String) : Bool :=
  key.data.contains '.'

/-- The traversal loop shared by tp_get (lines 188-198) and tp_set (lines
278-288):

    cur = cJSON_GetObjectItem(h->root, ptr);
    while (cur && cur->type == cJSON_Object) {
        ptr = strtok_r(NULL, ".", &p);
        if (!ptr) { ... return NULL; }   // "Incomplete key path"
        cur = cJSON_GetObjectItem(cur, ptr);
    }

Input: the already-looked-up cursor and the remaining tokens.  Output:
`Except.error ()` models the "Incomplete key path" exit (tokens exhausted
while at an object node); `Except.ok (consumed, cur)` models loop exit with
the list of consumed tokens and the final cursor (`none` = NULL). -/
def walkLoop : Option JNode → List String → Except Unit (List String × Option JNode)
  | none, _ => Except.ok ([], none)
  | some c, toks =>
    if c.isObject = true then
      match toks with
      | [] => Except.error ()
      | t :: rest =>
        match walkLoop (getObjectItem c t) rest with
        | Except.error e => Except.error e
        | Except.ok (p, r) => Except.ok (t :: p, r)
    else Except.ok ([], some c)

/-- Collapse a `walkLoop` result to the node it settled on, identifying the
"incomplete path" and "child not found" failures (both make tp_get/tp_set
fail the same way). -/
def walkOutcome : Except Unit (List String × Option JNode) → Option JNode
  | Except.error _ => none
  | Except.ok (_, r) => r

/-- Spec-language description of where the traversal stops, starting from a
node that has already been looked up: descend segment by segment while the
current node is an object; stop at the first non-object node (remaining
segments are ignored); fail if a lookup fails or if the segments run out
while still at an object node. -/
def resolveStop (n : JNode) : List String → Option JNode
  | [] => if n.isObject = true then none else some n
  | t :: rest =>
    if n.isObject = true then
      match getObjectItem n t with
      | some c => resolveStop c rest
      | none => none
    else some n

/-- Spec-language description of the node a multi-level key's token list
reaches from the root (the root itself is not type-checked: the first
lookup in the C code happens before any object test). -/
def resolveKey (root : JNode) : List String → Option JNode
  | [] => none
  | t :: rest =>
    match getObjectItem root t with
    | some c => resolveStop c rest
    | none => none

/-- Spec-language strict resolution ("path resolves through nested object
nodes"): follow every segment, requiring each node a segment is looked up in
to be an object, and consume the whole path. -/
def objPathTo (n : JNode) : List String → Option JNode
  | [] => some n
  | t :: rest =>
    if n.isObject = true then
      match getObjectItem n t with
      | some c => objPathTo c rest
      | none => none
    else none

mutual
/-- Functional rendering of the in-place mutation `cur->valuestring = ...`
performed by tp_set: rebuild the tree with the `valuestring` of the node at
`path` (first-match lookups) replaced by `v`.  A path that does not resolve
leaves the tree unchanged (tp_set never takes that case). -/
def setValueAt : JNode → List String → Option String → JNode
  | JNode.mk b _ cs, [], v => JNode.mk b v cs
  | JNode.mk b vs cs, t :: rest, v => JNode.mk b vs (setInChildren cs t rest v)

/-- Rewrites the first child named `t` with `setValueAt · rest v`. -/
def setInChildren : List (String × JNode) → String → List String → Option String → List (String × JNode)
  | [], _, _, _ => []
  | (k, c) :: cs, t, rest, v =>
    if k == t then (k, setValueAt c rest v) :: cs
    else (k, c) :: setInChildren cs t rest v
end

mutual
/-- Executable model of the external serializer `cJSON_Print`: any concrete
injection of trees into strings works for the properties proved here (only
*which* tree was serialized matters to the claims). -/
def jsonPrint : JNode → String
  | JNode.mk true _ cs => "\x7b" ++ printMembers cs ++ "\x7d"
  | JNode.mk false vs _ =>
    match vs with
    | some s => "\x22" ++ s ++ "\x22"
    | none => "null"

/-- Serialize an object's members. -/
def printMembers : List (String × JNode) → String
  | [] => ""
  | [(k, c)] => "\x22" ++ k ++ "\x22:" ++ jsonPrint c
  | (k, c) :: rest => "\x22" ++ k ++ "\x22:" ++ jsonPrint c ++ "," ++ printMembers rest
end

/-- Some proper prefix of a buffer: the bytes a short `fwrite` left in the
temp file (the model uses the half-length prefix as representative). -/
def shortPrefix (s : String) : String :=
  String.mk (s.data.take (s.data.length / 2))

/-- The spec's error taxonomy for Get/Set, assigned to the distinct exit
branches of the C functions (which all return NULL / -1, distinguished by
their log messages). -/
inductive TpErr : Type where
  | invalidArg : TpErr
  | allocFail : TpErr
  | keyNotFound : TpErr
  | ioError : TpErr
deriving DecidableEq, Repr

/-- The spec's error taxonomy for Open, assigned to tp_open's exit
branches. -/
inductive OpenErr : Type where
  | notFound : OpenErr
  | allocFail : OpenErr
  | ioError : OpenErr
  | parseError : OpenErr
deriving DecidableEq, Repr

/-- The `tp_handle_t` struct: parsed tree (`root`, NULL modelled by `none`),
saved `filename`, and whether the kept-open `FILE *fp` is live.  The mutex
is not a field: lock activity is reported as an event trace instead. -/
structure TpHandle : Type where
  root : Option JNode
  filename : Option String
  fpOpen : Bool

/-- The on-disk state tp_set interacts with: the content of the store's file
(`main`) and of its `<filename>.tmp` sibling (`none` = absent). -/
structure Disk : Type where
  main : String
  temp : Option String

/-- Allocation outcomes for one tp_get call: whether `strdup(key)` and
`strdup(cur->valuestring)` succeed. -/
structure GetEnv : Type where
  strdupKeyOk : Bool
  strdupResultOk : Bool

/-- The all-allocations-succeed environment for tp_get. -/
def GetEnv.allOk : GetEnv := ⟨true, true⟩

/-- Allocation and I/O outcomes for one tp_set call, one flag per fallible
C call in source order: `strdup(key)`, `strdup(value)`, `fopen(temp, "w")`,
`cJSON_Print`, full `fwrite`, `rename`, reopening `fopen(filename, "r+")`. -/
structure SetEnv : Type where
  strdupKeyOk : Bool
  strdupValueOk : Bool
  tempOpenOk : Bool
  printOk : Bool
  writeOk : Bool
  renameOk : Bool
  reopenOk : Bool

/-- Everything succeeds. -/
def SetEnv.allOk : SetEnv := ⟨true, true, true, true, true, true, true⟩

/-- Everything succeeds except the post-rename reopen of the store's file. -/
def SetEnv.reopenFail : SetEnv := ⟨true, true, true, true, true, true, false⟩

/-- Everything succeeds except opening the temporary file for writing. -/
def SetEnv.tempOpenFail : SetEnv := ⟨true, true, false, true, true, true, true⟩

/-- Result of a tp_get call: the returned value (or the error branch taken)
and the trace of mutex operations performed. -/
structure GetResult : Type where
  res : Except TpErr String
  tr : List LockEv

/-- Result of a tp_set call: return status, the handle and disk afterwards,
and the trace of mutex operations performed. -/
structure SetResult : Type where
  ret : Except TpErr Unit
  hOut : TpHandle
  dOut : Disk
  tr : List LockEv

/-- The node tp_get's traversal settles on (tinyparam.c lines 161-198):
single-level keys (no dot) are looked up directly under the root; dotted
keys are tokenized by strtok (`segs`) and walked by the loop (`walkLoop`);
an empty token list is the "Invalid key format" exit. -/
def getResolve (root : JNode) (key : String) : Option JNode :=
  if hasDot key = false then getObjectItem root key
  else
    match segs key with
    | [] => none
    | t :: rest => walkOutcome (walkLoop (getObjectItem root t) rest)

/-- `tp_get` (tinyparam.c lines 136-215).  Exits in source order: NULL root
("JSON root is empty") and `strdup(key)` failure happen before the lock is
taken; every later exit unlocks first.  All traversal failures — single or
multi level key not found, node without a `valuestring`, empty token list,
incomplete path — return NULL, tagged `keyNotFound`.  On success the value
is returned (a fresh `strdup` copy in C; `strdupResultOk` is its outcome,
checked after unlocking, exactly as in the source). -/
def tp_get (h : TpHandle) (key : String) (env : GetEnv) : GetResult :=
  match h.root with
  | none => ⟨Except.error TpErr.invalidArg, []⟩
  | some root =>
    if env.strdupKeyOk = false then ⟨Except.error TpErr.allocFail, []⟩
    else
      match getResolve root key with
      | none => ⟨Except.error TpErr.keyNotFound, [LockEv.lock, LockEv.unlock]⟩
      | some cur =>
        match cur.valuestring with
        | none => ⟨Except.error TpErr.keyNotFound, [LockEv.lock, LockEv.unlock]⟩
        | some s =>
          if env.strdupResultOk = false then
            ⟨Except.error TpErr.allocFail, [LockEv.lock, LockEv.unlock]⟩
          else ⟨Except.ok s, [LockEv.lock, LockEv.unlock]⟩

/-- The target path tp_set's traversal finds (tinyparam.c lines 249-295):
for a single-level key a root child must exist (note: no check that it is a
string leaf); for a dotted key the strtok/walk loop identical to tp_get's
must settle on a non-NULL node.  `none` covers all the `keyNotFound`-tagged
exits ("Single-level key not found", "Invalid key format", "Incomplete key
path", "Key not found"); `some path` is the chain of child names leading to
the node the C code holds a `cur` pointer to. -/
def setFindPath (root : JNode) (key : String) : Option (List String) :=
  if hasDot key = false then
    match getObjectItem root key with
    | none => none
    | some _ => some [key]
  else
    match segs key with
    | [] => none
    | t :: rest =>
      match walkLoop (getObjectItem root t) rest with
      | Except.error _ => none
      | Except.ok (_, none) => none
      | Except.ok (p, some _) => some (t :: p)

/-- `tp_set` (tinyparam.c lines 225-374).  Exits in source order:
NULL filename / NULL root ("Invalid handle..." / "JSON root is empty") and
`strdup(key)` failure precede the lock; every later exit unlocks first.
After the traversal finds the target node, the code frees the node's old
`valuestring` and installs `strdup(value)` — so on *every* subsequent
failure path (`strdup(value)`, temp-file open, `cJSON_Print`, short
`fwrite`, `rename`, post-rename reopen) the code re-frees the field and
leaves it NULL (`setValueAt root path none`), not the prior value.  Disk
effects: `fopen(temp,"w")` truncates/creates the temp file; a short write
leaves a prefix; `rename` atomically replaces `main` with the serialized
buffer and removes the temp; the reopen failure closes `fp` for good. -/
def tp_set (h : TpHandle) (d : Disk) (key value : String) (env : SetEnv) : SetResult :=
  match h.filename with
  | none => ⟨Except.error TpErr.invalidArg, h, d, []⟩
  | some _ =>
    match h.root with
    | none => ⟨Except.error TpErr.invalidArg, h, d, []⟩
    | some root =>
      if env.strdupKeyOk = false then ⟨Except.error TpErr.allocFail, h, d, []⟩
      else
        match setFindPath root key with
        | none => ⟨Except.error TpErr.keyNotFound, h, d, [LockEv.lock, LockEv.unlock]⟩
        | some path =>
          if env.strdupValueOk = false then
            ⟨Except.error TpErr.allocFail, { h with root := some (setValueAt root path none) },
              d, [LockEv.lock, LockEv.unlock]⟩
          else if env.tempOpenOk = false then
            ⟨Except.error TpErr.ioError, { h with root := some (setValueAt root path none) },
              d, [LockEv.lock, LockEv.unlock]⟩
          else if env.printOk = false then
            ⟨Except.error TpErr.ioError, { h with root := some (setValueAt root path none) },
              { d with temp := some "" }, [LockEv.lock, LockEv.unlock]⟩
          else if env.writeOk = false then
            ⟨Except.error TpErr.ioError, { h with root := some (setValueAt root path none) },
              { d with temp := some (shortPrefix (jsonPrint (setValueAt root path (some value)))) },
              [LockEv.lock, LockEv.unlock]⟩
          else if env.renameOk = false then
            ⟨Except.error TpErr.ioError, { h with root := some (setValueAt root path none) },
              { d with temp := some (jsonPrint (setValueAt root path (some value))) },
              [LockEv.lock, LockEv.unlock]⟩
          else if env.reopenOk = false then
            ⟨Except.error TpErr.ioError,
              ⟨some (setValueAt root path none), h.filename, false⟩,
              ⟨jsonPrint (setValueAt root path (some value)), none⟩,
              [LockEv.lock, LockEv.unlock]⟩
          else
            ⟨Except.ok (), ⟨some (setValueAt root path (some value)), h.filename, true⟩,
              ⟨jsonPrint (setValueAt root path (some value)), none⟩,
              [LockEv.lock, LockEv.unlock]⟩

/-- Outcomes of the fallible calls tp_open makes, in source order:
`access(file, F_OK)`, `calloc` of the handle, `pthread_mutex_init`,
`strdup(file)`, `fopen(file, "r+")`, `stat`, `malloc` of the read buffer,
full `fread`, and finally `cJSON_Parse` of the file's bytes.  The parser is
the external collaborator, so its outcome — `none` for malformed input,
`some tree` for any successful parse (the root need not be an object) — is
an input to the model. -/
structure OpenEnv : Type where
  fileExists : Bool
  callocOk : Bool
  mutexInitOk : Bool
  strdupOk : Bool
  fopenOk : Bool
  statOk : Bool
  mallocBufOk : Bool
  freadFullOk : Bool
  parseResult : Option JNode

/-- Which resources acquired by tp_open are still alive when it returns:
the handle allocation, the initialized mutex, the filename copy, the open
`FILE *`, the read buffer, and the parsed tree. -/
structure Ledger : Type where
  handleAlive : Bool
  mutexAlive : Bool
  filenameAlive : Bool
  fpAlive : Bool
  bufAlive : Bool
  rootAlive : Bool
deriving DecidableEq, Repr

/-- No resource held. -/
def Ledger.cleared : Ledger := ⟨false, false, false, false, false, false⟩

/-- The resources a successfully opened store owns (the read buffer was
freed; everything else lives on in the handle). -/
def Ledger.openStore : Ledger := ⟨true, true, true, true, false, true⟩

/-- The `fail:` label of tp_open (lines 96-104): free the buffer, close the
file, free the filename copy, destroy the mutex, free the handle (each
guarded by a NULL test in C; the parse tree is not touched there). -/
def failCleanup (L : Ledger) : Ledger :=
  { L with bufAlive := false, fpAlive := false, filenameAlive := false,
           mutexAlive := false, handleAlive := false }

/-- `tp_open` (tinyparam.c lines 16-105).  Each early-return branch performs
exactly the releases written in the C source at that point; later failures
jump to the shared `fail:` cleanup.  On success the returned handle holds
the parsed tree, the filename copy and the open file. -/
def tp_open (file : String) (env : OpenEnv) : Except OpenErr TpHandle × Ledger :=
  if env.fileExists = false then
    (Except.error OpenErr.notFound, Ledger.cleared)
  else if env.callocOk = false then
    (Except.error OpenErr.allocFail, Ledger.cleared)
  else
    -- handle allocated
    let L1 : Ledger := { Ledger.cleared with handleAlive := true }
    if env.mutexInitOk = false then
      (Except.error OpenErr.allocFail, { L1 with handleAlive := false })
    else
      let L2 : Ledger := { L1 with mutexAlive := true }
      if env.strdupOk = false then
        (Except.error OpenErr.allocFail, { L2 with mutexAlive := false, handleAlive := false })
      else
        let L3 : Ledger := { L2 with filenameAlive := true }
        if env.fopenOk = false then
          (Except.error OpenErr.ioError,
            { L3 with mutexAlive := false, filenameAlive := false, handleAlive := false })
        else
          let L4 : Ledger := { L3 with fpAlive := true }
          if env.statOk = false then
            (Except.error OpenErr.ioError, failCleanup L4)
          else if env.mallocBufOk = false then
            (Except.error OpenErr.allocFail, failCleanup L4)
          else
            let L5 : Ledger := { L4 with bufAlive := true }
            if env.freadFullOk = false then
              (Except.error OpenErr.ioError, failCleanup L5)
            else
              match env.parseResult with
              | none => (Except.error OpenErr.parseError, failCleanup L5)
              | some r =>
                (Except.ok ⟨some r, some file, true⟩, { L5 with rootAlive := true, bufAlive := false })

/-- `Except.ok`-ness of a tp_open result, as a boolean. -/
def openOk : Except OpenErr TpHandle → Bool
  | Except.ok _ => true
  | Except.error _ => false


/-! ## Concrete sample stores used by witnesses and counterexamples -/

/-- A string leaf holding "x". -/
def leafX : JNode := JNode.mk false (some "x") []

/-- The parse tree of `{"a": "x"}`. -/
def treeA : JNode := JNode.mk true none [("a", leafX)]

/-- An open store on `treeA`, backed by file "f". -/
def hA : TpHandle := ⟨some treeA, some "f", true⟩

/-- A disk whose main file holds the bytes "orig" and no temp file. -/
def dA : Disk := ⟨"orig", none⟩

/-- The parse tree of `{"a": {}}` (the child "a" is an object). -/
def treeObjA : JNode := JNode.mk true none [("a", JNode.mk true none [])]

/-- An open store on `treeObjA`. -/
def hObjA : TpHandle := ⟨some treeObjA, some "f", true⟩

/-- The spec's end-to-end example tree:
`{"system":{"audio":{"volume":"50","mute":"false"},"display":{"brightness":"75"}}}`. -/
def treeNested : JNode :=
  JNode.mk true none
    [("system", JNode.mk true none
        [("audio", JNode.mk true none
            [("volume", JNode.mk false (some "50") []),
             ("mute", JNode.mk false (some "false") [])]),
         ("display", JNode.mk true none
            [("brightness", JNode.mk false (some "75") [])])])]

/-- An open store on the spec's example tree. -/
def hB : TpHandle := ⟨some treeNested, some "cfg.json", true⟩

/-- A disk consistent with `treeNested`. -/
def dB : Disk := ⟨jsonPrint treeNested, none⟩

/-- An Open environment where everything succeeds and the file parses to a
non-object root (the JSON document `"42"`). -/
def envNonObjRoot : OpenEnv :=
  ⟨true, true, true, true, true, true, true, true, some (JNode.mk false (some "42") [])⟩

/-- An Open environment for a nonexistent path. -/
def envNoFile : OpenEnv := ⟨false, true, true, true, true, true, true, true, none⟩

/-- An Open environment where the file's bytes fail to parse. -/
def envBadJson : OpenEnv := ⟨true, true, true, true, true, true, true, true, none⟩

/-! ## Helper lemmas -/

theorem segsAux_nodot (cs : List Char) :
    ∀ acc : List Char, cs.contains '.' = false → acc.reverse ++ cs ≠ [] →
      segsAux cs acc = [String.mk (acc.reverse ++ cs)] := by
  induction cs with
  | nil =>
    intro acc _ hne
    simp only [List.append_nil] at hne ⊢
    have hacc : acc.isEmpty = false := by
      cases acc with
      | nil => simp at hne
      | cons a as => rfl
    simp [segsAux, hacc]
  | cons c rest ih =>
    intro acc hnd _
    have hnd' : (('.' == c) || rest.contains '.') = false := hnd
    simp only [Bool.or_eq_false_iff] at hnd'
    have hc : ¬(c = '.') := by
      intro h
      subst h
      simp at hnd'
    simp only [segsAux, if_neg hc]
    rw [ih (c :: acc) hnd'.2 (by simp)]
    have h1 : (c :: acc).reverse ++ rest = acc.reverse ++ (c :: rest) := by
      simp
    rw [h1]

theorem segs_nodot (key : String) (hnd : hasDot key = false) (hne : key.data ≠ []) :
    segs key = [key] := by
  unfold segs
  rw [segsAux_nodot key.data [] hnd (by simpa using hne)]
  simp only [List.reverse_nil, List.nil_append]

theorem segs_ne_data_ne (key : String) (hs : segs key ≠ []) : key.data ≠ [] := by
  intro h0
  apply hs
  unfold segs
  rw [h0]
  rfl

theorem find?_setInChildren (t : String) (rest : List String) (v : Option String) :
    ∀ cs : List (String × JNode),
      List.find? (fun kv => kv.1 == t) (setInChildren cs t rest v)
        = (List.find? (fun kv => kv.1 == t) cs).map (fun kv => (kv.1, setValueAt kv.2 rest v)) := by
  intro cs
  induction cs with
  | nil => simp [setInChildren]
  | cons hd tl ih =>
    obtain ⟨k, c⟩ := hd
    by_cases hk : (k == t) = true
    · simp [setInChildren, hk, List.find?_cons_of_pos, ih]
    · have hk' : (k == t) = false := by
        cases h : (k == t) with
        | true => exact absurd h hk
        | false => rfl
      simp only [setInChildren, hk', Bool.false_eq_true, if_false]
      rw [List.find?_cons_of_neg, List.find?_cons_of_neg]
      · exact ih
      · simp_all
      · simp_all

theorem getObjectItem_setValueAt (b : Bool) (vs : Option String) (cs : List (String × JNode))
    (t : String) (rest : List String) (v : Option String) :
    getObjectItem (JNode.mk b vs (setInChildren cs t rest v)) t
      = (getObjectItem (JNode.mk b vs cs) t).map (fun m => setValueAt m rest v) := by
  unfold getObjectItem
  simp only [JNode.children]
  rw [find?_setInChildren]
  cases List.find? (fun kv => kv.1 == t) cs <;> rfl

theorem withVs_isObject (c : JNode) (v : Option String) :
    (c.withVs v).isObject = c.isObject := by
  cases c
  rfl

theorem withVs_valuestring (c : JNode) (v : Option String) :
    (c.withVs v).valuestring = v := by
  cases c
  rfl

theorem objPathTo_setValueAt (toks : List String) :
    ∀ (n c : JNode) (v : Option String), objPathTo n toks = some c →
      objPathTo (setValueAt n toks v) toks = some (c.withVs v) := by
  induction toks with
  | nil =>
    intro n c v h
    simp only [objPathTo, Option.some.injEq] at h
    subst h
    cases n
    rfl
  | cons t rest ih =>
    intro n c v h
    cases n with
    | mk b vs cs =>
      simp only [objPathTo, JNode.isObject] at h
      by_cases hb : b = true
      · subst hb
        simp only [if_pos rfl] at h
        cases hm : getObjectItem (JNode.mk true vs cs) t with
        | none => rw [hm] at h; exact absurd h (by simp)
        | some m =>
          rw [hm] at h
          simp only [setValueAt]
          simp only [objPathTo, JNode.isObject, if_pos rfl]
          rw [getObjectItem_setValueAt, hm]
          show objPathTo (setValueAt m rest v) rest = some (c.withVs v)
          exact ih m c v h
      · rw [if_neg hb] at h
        exact absurd h (by simp)

theorem getResolve_dot (r : JNode) (key : String) (t : String) (rest : List String)
    (hd : hasDot key = true) (hseg : segs key = t :: rest) :
    getResolve r key = walkOutcome (walkLoop (getObjectItem r t) rest) := by
  unfold getResolve
  rw [hd, hseg]
  rfl

theorem getResolve_nodot (r : JNode) (key : String) (hd : hasDot key = false) :
    getResolve r key = getObjectItem r key := by
  unfold getResolve
  rw [hd]
  rfl

theorem setFindPath_dot (r : JNode) (key : String) (t : String) (rest : List String)
    (hd : hasDot key = true) (hseg : segs key = t :: rest) :
    setFindPath r key =
      (match walkLoop (getObjectItem r t) rest with
       | Except.error _ => none
       | Except.ok (_, none) => none
       | Except.ok (p, some _) => some (t :: p)) := by
  unfold setFindPath
  rw [hd, hseg]
  rfl

theorem setFindPath_nodot (r : JNode) (key : String) (hd : hasDot key = false) :
    setFindPath r key =
      (match getObjectItem r key with
       | none => none
       | some _ => some [key]) := by
  unfold setFindPath
  rw [hd]
  rfl

theorem setFindPath_dot_nil (r : JNode) (key : String)
    (hd : hasDot key = true) (hseg : segs key = []) : setFindPath r key = none := by
  unfold setFindPath
  rw [hd, hseg]
  rfl

theorem walk_of_objPathTo (toks : List String) :
    ∀ (n c : JNode), objPathTo n toks = some c → c.isObject = false →
      walkLoop (some n) toks = Except.ok (toks, some c) := by
  induction toks with
  | nil =>
    intro n c h hobj
    simp only [objPathTo, Option.some.injEq] at h
    subst h
    simp [walkLoop, hobj]
  | cons t rest ih =>
    intro n c h hobj
    have hno : n.isObject = true := by
      by_contra hb
      simp only [objPathTo] at h
      rw [if_neg hb] at h
      exact absurd h (by simp)
    simp only [objPathTo, if_pos hno] at h
    cases hm : getObjectItem n t with
    | none => rw [hm] at h; exact absurd h (by simp)
    | some m =>
      rw [hm] at h
      have hrec := ih m c h hobj
      simp [walkLoop, hno, hm, hrec]

theorem walkOutcome_resolveStop (toks : List String) :
    ∀ n : JNode, walkOutcome (walkLoop (some n) toks) = resolveStop n toks := by
  induction toks with
  | nil =>
    intro n
    by_cases hno : n.isObject = true
    · simp [walkLoop, resolveStop, hno, walkOutcome]
    · simp [walkLoop, resolveStop, hno, walkOutcome]
  | cons t rest ih =>
    intro n
    by_cases hno : n.isObject = true
    · simp only [walkLoop, resolveStop, hno, if_pos rfl]
      cases hm : getObjectItem n t with
      | none => simp [walkLoop, walkOutcome]
      | some m =>
        have hmm := ih m
        cases hw : walkLoop (some m) rest with
        | error e =>
          rw [hw] at hmm
          simpa [walkOutcome] using hmm
        | ok pr =>
          obtain ⟨p, r⟩ := pr
          rw [hw] at hmm
          simpa [walkOutcome] using hmm
    · simp [walkLoop, resolveStop, hno, walkOutcome]

theorem resolveKey_eq_walk (root : JNode) (t : String) (rest : List String) :
    walkOutcome (walkLoop (getObjectItem root t) rest) = resolveKey root (t :: rest) := by
  cases hm : getObjectItem root t with
  | none => simp [walkLoop, walkOutcome, resolveKey, hm]
  | some m =>
    rw [walkOutcome_resolveStop]
    simp [resolveKey, hm]

theorem objPathTo_cons (n c : JNode) (t : String) (rest : List String)
    (h : objPathTo n (t :: rest) = some c) :
    n.isObject = true ∧ ∃ m, getObjectItem n t = some m ∧ objPathTo m rest = some c := by
  have hno : n.isObject = true := by
    by_contra hb
    simp only [objPathTo] at h
    rw [if_neg hb] at h
    exact absurd h (by simp)
  refine ⟨hno, ?_⟩
  simp only [objPathTo, if_pos hno] at h
  cases hm : getObjectItem n t with
  | none => rw [hm] at h; exact absurd h (by simp)
  | some m =>
    rw [hm] at h
    exact ⟨m, rfl, h⟩

theorem getResolve_of_objPathTo (r : JNode) (key : String) (c : JNode)
    (hs : segs key ≠ []) (hres : objPathTo r (segs key) = some c)
    (hobj : c.isObject = false) : getResolve r key = some c := by
  by_cases hd : hasDot key = true
  · cases hseg : segs key with
    | nil => exact absurd hseg hs
    | cons t rest =>
      rw [hseg] at hres
      obtain ⟨_, m, hm, hres'⟩ := objPathTo_cons r c t rest hres
      rw [getResolve_dot r key t rest hd hseg, hm,
        walk_of_objPathTo rest m c hres' hobj]
      rfl
  · have hd' : hasDot key = false := by
      cases h : hasDot key with
      | true => exact absurd h hd
      | false => rfl
    have hne : key.data ≠ [] := segs_ne_data_ne key hs
    have hseg : segs key = [key] := segs_nodot key hd' hne
    rw [hseg] at hres
    obtain ⟨_, m, hm, hres'⟩ := objPathTo_cons r c key [] hres
    simp only [objPathTo, Option.some.injEq] at hres'
    rw [getResolve_nodot r key hd', hm, hres']

theorem setFindPath_of_objPathTo (r : JNode) (key : String) (c : JNode)
    (hs : segs key ≠ []) (hres : objPathTo r (segs key) = some c)
    (hobj : c.isObject = false) : setFindPath r key = some (segs key) := by
  by_cases hd : hasDot key = true
  · cases hseg : segs key with
    | nil => exact absurd hseg hs
    | cons t rest =>
      rw [hseg] at hres
      obtain ⟨_, m, hm, hres'⟩ := objPathTo_cons r c t rest hres
      rw [setFindPath_dot r key t rest hd hseg, hm,
        walk_of_objPathTo rest m c hres' hobj]
  · have hd' : hasDot key = false := by
      cases h : hasDot key with
      | true => exact absurd h hd
      | false => rfl
    have hne : key.data ≠ [] := segs_ne_data_ne key hs
    have hseg : segs key = [key] := segs_nodot key hd' hne
    rw [hseg] at hres
    obtain ⟨_, m, hm, _⟩ := objPathTo_cons r c key [] hres
    rw [setFindPath_nodot r key hd', hm, hseg]

theorem setFindPath_none_iff (r : JNode) (key : String) :
    setFindPath r key = none
      ↔ (if hasDot key = true then resolveKey r (segs key) else getObjectItem r key) = none := by
  by_cases hd : hasDot key = true
  · rw [if_pos hd]
    cases hseg : segs key with
    | nil =>
      rw [setFindPath_dot_nil r key hd hseg]
      simp [resolveKey]
    | cons t rest =>
      rw [setFindPath_dot r key t rest hd hseg, ← resolveKey_eq_walk]
      cases hw : walkLoop (getObjectItem r t) rest with
      | error e => simp [walkOutcome]
      | ok pr =>
        obtain ⟨p, rr⟩ := pr
        cases rr with
        | none => simp [walkOutcome]
        | some cc => simp [walkOutcome]
  · have hd' : hasDot key = false := by
      cases h : hasDot key with
      | true => exact absurd h hd
      | false => rfl
    rw [hd', if_neg Bool.false_ne_true, setFindPath_nodot r key hd']
    cases hm : getObjectItem r key <;> simp

theorem tp_get_strict (h : TpHandle) (key : String) (r c : JNode) (v : String)
    (hr : h.root = some r) (hs : segs key ≠ [])
    (hres : objPathTo r (segs key) = some c) (hobj : c.isObject = false)
    (hvs : c.valuestring = some v) :
    tp_get h key GetEnv.allOk = ⟨Except.ok v, [LockEv.lock, LockEv.unlock]⟩ := by
  have hg := getResolve_of_objPathTo r key c hs hres hobj
  simp [tp_get, hr, GetEnv.allOk, hg, hvs]

theorem tp_set_allOk_strict (h : TpHandle) (d : Disk) (key value : String)
    (r c : JNode) (fn : String)
    (hr : h.root = some r) (hf : h.filename = some fn) (hs : segs key ≠ [])
    (hres : objPathTo r (segs key) = some c) (hobj : c.isObject = false) :
    tp_set h d key value SetEnv.allOk =
      ⟨Except.ok (), ⟨some (setValueAt r (segs key) (some value)), some fn, true⟩,
       ⟨jsonPrint (setValueAt r (segs key) (some value)), none⟩,
       [LockEv.lock, LockEv.unlock]⟩ := by
  have hp := setFindPath_of_objPathTo r key c hs hres hobj
  simp [tp_set, hr, hf, SetEnv.allOk, hp]

theorem tp_set_reopenFail_strict (h : TpHandle) (d : Disk) (key value : String)
    (r c : JNode) (fn : String)
    (hr : h.root = some r) (hf : h.filename = some fn) (hs : segs key ≠ [])
    (hres : objPathTo r (segs key) = some c) (hobj : c.isObject = false) :
    tp_set h d key value SetEnv.reopenFail =
      ⟨Except.error TpErr.ioError, ⟨some (setValueAt r (segs key) none), some fn, false⟩,
       ⟨jsonPrint (setValueAt r (segs key) (some value)), none⟩,
       [LockEv.lock, LockEv.unlock]⟩ := by
  have hp := setFindPath_of_objPathTo r key c hs hres hobj
  simp [tp_set, hr, hf, SetEnv.reopenFail, hp]

theorem getResolve_dot_nil (r : JNode) (key : String)
    (hd : hasDot key = true) (hseg : segs key = []) : getResolve r key = none := by
  unfold getResolve
  rw [hd, hseg]
  rfl

/-! ## Claims -/

/-- C1 (amended): tp_set fails with KeyNotFound exactly when its traversal
finds no target node — for a dotted key, when the lenient resolution
(descend through objects, stop at the first non-object, fail on a missing
child or on running out of segments at an object) yields nothing; for a
dot-free key, when the root has no child of that name — and in that case it
leaves both the in-memory tree and the on-disk file byte-for-byte
unchanged.  When a target node is found (including an intermediate leaf
that absorbs the remaining segments, and non-string targets), tp_set never
fails with KeyNotFound. -/
theorem c1_set_keynotfound_iff_unresolved (h : TpHandle) (d : Disk)
    (key value : String) (env : SetEnv) (r : JNode) (fn : String)
    (hr : h.root = some r) (hf : h.filename = some fn) (hk : env.strdupKeyOk = true) :
    ((if hasDot key = true then resolveKey r (segs key) else getObjectItem r key) = none →
       tp_set h d key value env =
         ⟨Except.error TpErr.keyNotFound, h, d, [LockEv.lock, LockEv.unlock]⟩) ∧
    (∀ c, (if hasDot key = true then resolveKey r (segs key) else getObjectItem r key) = some c →
       (tp_set h d key value env).ret ≠ Except.error TpErr.keyNotFound) := by
  constructor
  · intro htgt
    have hp : setFindPath r key = none := (setFindPath_none_iff r key).mpr htgt
    simp [tp_set, hr, hf, hk, hp]
  · intro c htgt hcon
    cases hpv : setFindPath r key with
    | none =>
      rw [(setFindPath_none_iff r key).mp hpv] at htgt
      exact absurd htgt (by simp)
    | some p =>
      rcases env with ⟨k1, k2, k3, k4, k5, k6, k7⟩
      simp only at hk
      subst hk
      cases k2 <;> cases k3 <;> cases k4 <;> cases k5 <;> cases k6 <;> cases k7 <;>
        simp [tp_set, hr, hf, hpv] at hcon

/-- C1 witness: on the store `{"a":"x"}` the key "b.c" resolves to nothing,
so tp_set fails with KeyNotFound and changes neither tree nor disk. -/
theorem c1_witness :
    tp_set hA dA "b.c" "v" SetEnv.allOk =
      ⟨Except.error TpErr.keyNotFound, hA, dA, [LockEv.lock, LockEv.unlock]⟩ :=
  (c1_set_keynotfound_iff_unresolved hA dA "b.c" "v" SetEnv.allOk treeA "f"
    rfl rfl rfl).1 rfl

/-- C1 counterexample: the claim says a key whose intermediate segment
resolves to a leaf (not an object) must fail with KeyNotFound and leave
tree and file unchanged; but on the store `{"a":"x"}` the key "a.b"
*succeeds* — the leaf "a" is overwritten with "v" and the file is
rewritten. -/
theorem c1_counterexample :
    (tp_set hA dA "a.b" "v" SetEnv.allOk).ret = Except.ok () ∧
    (tp_set hA dA "a.b" "v" SetEnv.allOk).hOut.root
      = some (JNode.mk true none [("a", JNode.mk false (some "v") [])]) ∧
    (tp_set hA dA "a.b" "v" SetEnv.allOk).dOut.main ≠ dA.main :=
  ⟨rfl, rfl, by decide⟩

/-- C2 (amended): for a multi-segment (dotted) key, tp_get returns exactly
the `valuestring` of the node reached by the lenient resolution — descend
from the first segment's child through object nodes, stop at the first
non-object node with remaining segments ignored — and fails with
KeyNotFound when that resolution finds no node or the node has no string
value.  In particular an intermediate leaf yields that leaf's value instead
of KeyNotFound. -/
theorem c2_get_returns_lenient_resolution (h : TpHandle) (key : String)
    (env : GetEnv) (r : JNode)
    (hr : h.root = some r) (hk : env.strdupKeyOk = true)
    (hkr : env.strdupResultOk = true) (hd : hasDot key = true) :
    (tp_get h key env).res =
      (match (resolveKey r (segs key)).bind JNode.valuestring with
       | some s => Except.ok s
       | none => Except.error TpErr.keyNotFound) := by
  have hgr : getResolve r key = resolveKey r (segs key) := by
    cases hseg : segs key with
    | nil =>
      rw [getResolve_dot_nil r key hd hseg]
      rfl
    | cons t rest =>
      rw [getResolve_dot r key t rest hd hseg, resolveKey_eq_walk]
  cases hcur : resolveKey r (segs key) with
  | none =>
    rw [hcur] at hgr
    simp [tp_get, hr, hk, hgr]
  | some cur =>
    rw [hcur] at hgr
    cases hv : cur.valuestring with
    | none => simp [tp_get, hr, hk, hgr, hv]
    | some s => simp [tp_get, hr, hk, hkr, hgr, hv]

/-- C2 witness: on the spec's example store, "system.audio.volume" is
returned according to the lenient resolution (it yields "50"). -/
theorem c2_witness :
    (tp_get hB "system.audio.volume" GetEnv.allOk).res =
      (match (resolveKey treeNested (segs "system.audio.volume")).bind JNode.valuestring with
       | some s => Except.ok s
       | none => Except.error TpErr.keyNotFound) :=
  c2_get_returns_lenient_resolution hB "system.audio.volume" GetEnv.allOk treeNested
    rfl rfl rfl rfl

/-- C2 counterexample: the claim says a segment resolving to a non-object
while further segments remain must make tp_get fail with KeyNotFound; but
on the store `{"a":"x"}` the key "a.b" *returns* "x" — the leaf "a" is
returned and the trailing segment "b" is ignored. -/
theorem c2_counterexample :
    (tp_get hA "a.b" GetEnv.allOk).res = Except.ok "x" := rfl

/-- C3: evaluation of the code at the failing input.  On the store
`{"a":"x"}` (disk bytes "orig"), setting key "a" to "v" while the temp file
cannot be opened leaves the on-disk file untouched, as the claim demands,
but the in-memory leaf is left with a NULL `valuestring` — not rolled back
to its prior value "x" as the claim (and the spec's required
memory/disk-consistency) demands. -/
theorem c3_tempfail_nulls_leaf_instead_of_rollback :
    tp_set hA dA "a" "v" SetEnv.tempOpenFail =
      ⟨Except.error TpErr.ioError,
       ⟨some (JNode.mk true none [("a", JNode.mk false none [])]), some "f", true⟩,
       dA, [LockEv.lock, LockEv.unlock]⟩ ∧
    treeA = JNode.mk true none [("a", JNode.mk false (some "x") [])] :=
  ⟨rfl, rfl⟩

/-- C4: read-your-writes and memory/disk agreement.  For every open store
and every key whose segments resolve strictly (through nested object nodes)
to an existing string leaf, a successful tp_set followed immediately by
tp_get on the same key returns exactly the just-set value (overwriting the
existing value), and the bytes written to the store's file are the
serialization of the updated in-memory tree (with the temp file gone). -/
theorem c4_set_then_get_returns_value (h : TpHandle) (d : Disk) (key value : String)
    (r c : JNode) (fn s0 : String)
    (hr : h.root = some r) (hf : h.filename = some fn) (hs : segs key ≠ [])
    (hres : objPathTo r (segs key) = some c) (hobj : c.isObject = false)
    (hvs : c.valuestring = some s0) :
    (tp_set h d key value SetEnv.allOk).ret = Except.ok () ∧
    (tp_get (tp_set h d key value SetEnv.allOk).hOut key GetEnv.allOk).res
      = Except.ok value ∧
    (tp_set h d key value SetEnv.allOk).hOut.root
      = some (setValueAt r (segs key) (some value)) ∧
    (tp_set h d key value SetEnv.allOk).dOut.main
      = jsonPrint (setValueAt r (segs key) (some value)) ∧
    (tp_set h d key value SetEnv.allOk).dOut.temp = none := by
  have hset := tp_set_allOk_strict h d key value r c fn hr hf hs hres hobj
  rw [hset]
  refine ⟨rfl, ?_, rfl, rfl, rfl⟩
  have hres' : objPathTo (setValueAt r (segs key) (some value)) (segs key)
      = some (c.withVs (some value)) :=
    objPathTo_setValueAt (segs key) r c (some value) hres
  have hobj' : (c.withVs (some value)).isObject = false := by
    rw [withVs_isObject]
    exact hobj
  have hget := tp_get_strict ⟨some (setValueAt r (segs key) (some value)), some fn, true⟩
    key (setValueAt r (segs key) (some value)) (c.withVs (some value)) value
    rfl hs hres' hobj' (withVs_valuestring c (some value))
  rw [hget]

/-- C4 witness: on the spec's example store, setting "system.audio.volume"
to "75" succeeds, an immediate get returns "75", and disk equals the
serialized updated tree. -/
theorem c4_witness :
    (tp_set hB dB "system.audio.volume" "75" SetEnv.allOk).ret = Except.ok () ∧
    (tp_get (tp_set hB dB "system.audio.volume" "75" SetEnv.allOk).hOut
        "system.audio.volume" GetEnv.allOk).res = Except.ok "75" ∧
    (tp_set hB dB "system.audio.volume" "75" SetEnv.allOk).hOut.root
      = some (setValueAt treeNested (segs "system.audio.volume") (some "75")) ∧
    (tp_set hB dB "system.audio.volume" "75" SetEnv.allOk).dOut.main
      = jsonPrint (setValueAt treeNested (segs "system.audio.volume") (some "75")) ∧
    (tp_set hB dB "system.audio.volume" "75" SetEnv.allOk).dOut.temp = none :=
  c4_set_then_get_returns_value hB dB "system.audio.volume" "75" treeNested
    (JNode.mk false (some "50") []) "cfg.json" "50" rfl rfl (by decide) rfl rfl rfl

/-- C5: for every open store and every key whose segments resolve through
nested object nodes to a string leaf (a non-object node holding a string
value), tp_get succeeds, returning that leaf's current value, and releases
the lock. -/
theorem c5_get_resolved_string_leaf (h : TpHandle) (key : String)
    (r c : JNode) (v : String)
    (hr : h.root = some r) (hs : segs key ≠ [])
    (hres : objPathTo r (segs key) = some c) (hobj : c.isObject = false)
    (hvs : c.valuestring = some v) :
    tp_get h key GetEnv.allOk = ⟨Except.ok v, [LockEv.lock, LockEv.unlock]⟩ :=
  tp_get_strict h key r c v hr hs hres hobj hvs

/-- C5 witness: Get("system.audio.volume") on the spec's example store
returns "50". -/
theorem c5_witness :
    tp_get hB "system.audio.volume" GetEnv.allOk
      = ⟨Except.ok "50", [LockEv.lock, LockEv.unlock]⟩ :=
  c5_get_resolved_string_leaf hB "system.audio.volume" treeNested
    (JNode.mk false (some "50") []) "50" rfl (by decide) rfl rfl rfl

/-- C6: lock discipline.  Every tp_get and tp_set call either never takes
the store's lock (the exits before `pthread_mutex_lock`) or performs
exactly one lock followed by one unlock — on every exit path, for every
combination of allocation and I/O outcomes, neither operation returns while
holding the lock. -/
theorem c6_lock_always_released (h : TpHandle) (d : Disk) (key value : String)
    (eg : GetEnv) (es : SetEnv) :
    ((tp_get h key eg).tr = [] ∨ (tp_get h key eg).tr = [LockEv.lock, LockEv.unlock]) ∧
    ((tp_set h d key value es).tr = [] ∨
      (tp_set h d key value es).tr = [LockEv.lock, LockEv.unlock]) := by
  constructor
  · cases hr : h.root with
    | none => left; simp [tp_get, hr]
    | some r =>
      cases hk : eg.strdupKeyOk with
      | false => left; simp [tp_get, hr, hk]
      | true =>
        right
        cases hg : getResolve r key with
        | none => simp [tp_get, hr, hk, hg]
        | some cur =>
          cases hv : cur.valuestring with
          | none => simp [tp_get, hr, hk, hg, hv]
          | some s =>
            cases hk2 : eg.strdupResultOk <;> simp [tp_get, hr, hk, hg, hv, hk2]
  · cases hf : h.filename with
    | none => left; simp [tp_set, hf]
    | some fn =>
      cases hr : h.root with
      | none => left; simp [tp_set, hf, hr]
      | some r =>
        rcases es with ⟨k1, k2, k3, k4, k5, k6, k7⟩
        cases k1 with
        | false => left; simp [tp_set, hf, hr]
        | true =>
          right
          cases hp : setFindPath r key with
          | none => simp [tp_set, hf, hr, hp]
          | some p =>
            cases k2 <;> cases k3 <;> cases k4 <;> cases k5 <;> cases k6 <;> cases k7 <;>
              simp [tp_set, hf, hr, hp]

/-- C7: whenever tp_open fails — at any stage, for every combination of
outcomes of its fallible calls — the resource ledger at return is empty
(handle, mutex, filename copy, file handle, buffer and tree all released),
and when it succeeds the returned store owns exactly the open-store
resources (buffer freed) with the parsed tree, the filename and an open
file handle installed; no partially-initialized store is ever returned. -/
theorem c7_open_failure_releases_everything (file : String) (env : OpenEnv) :
    (tp_open file env).2 =
      (if openOk (tp_open file env).1 then Ledger.openStore else Ledger.cleared) ∧
    (match (tp_open file env).1 with
     | Except.ok hh => (∃ rt, hh.root = some rt) ∧ hh.filename = some file ∧ hh.fpOpen = true
     | Except.error _ => True) := by
  rcases env with ⟨e1, e2, e3, e4, e5, e6, e7, e8, pr⟩
  cases e1 <;> cases e2 <;> cases e3 <;> cases e4 <;> cases e5 <;> cases e6 <;>
    cases e7 <;> cases e8 <;> cases pr <;>
    simp [tp_open, openOk, Ledger.cleared, Ledger.openStore, failCleanup]

/-- C8 (amended): opening a nonexistent path fails with NotFound, and
opening a path whose bytes do not parse as JSON fails with ParseError, both
yielding no store; but a file that parses to a *non-object* root is
accepted — tp_open succeeds and installs that root (only parse failure is
checked, never the root's type). -/
theorem c8_open_notfound_and_parseerror (file : String) (env : OpenEnv) :
    (env.fileExists = false → (tp_open file env).1 = Except.error OpenErr.notFound) ∧
    (env.fileExists = true → env.callocOk = true → env.mutexInitOk = true →
      env.strdupOk = true → env.fopenOk = true → env.statOk = true →
      env.mallocBufOk = true → env.freadFullOk = true → env.parseResult = none →
      (tp_open file env).1 = Except.error OpenErr.parseError) ∧
    (∀ rt, env.fileExists = true → env.callocOk = true → env.mutexInitOk = true →
      env.strdupOk = true → env.fopenOk = true → env.statOk = true →
      env.mallocBufOk = true → env.freadFullOk = true → env.parseResult = some rt →
      (tp_open file env).1 = Except.ok ⟨some rt, some file, true⟩) := by
  refine ⟨?_, ?_, ?_⟩
  · intro h1
    simp [tp_open, h1]
  · intro h1 h2 h3 h4 h5 h6 h7 h8 h9
    simp [tp_open, h1, h2, h3, h4, h5, h6, h7, h8, h9]
  · intro rt h1 h2 h3 h4 h5 h6 h7 h8 h9
    simp [tp_open, h1, h2, h3, h4, h5, h6, h7, h8, h9]

/-- C8 witness: opening a nonexistent path fails with NotFound. -/
theorem c8_witness :
    (tp_open "f" envNoFile).1 = Except.error OpenErr.notFound :=
  (c8_open_notfound_and_parseerror "f" envNoFile).1 rfl

/-- C8 counterexample: the claim says a file whose JSON root is not an
object fails with ParseError; but on a file parsing to the non-object
document `"42"` tp_open *succeeds* and returns a usable store holding that
root. -/
theorem c8_counterexample :
    (tp_open "f" envNonObjRoot).1
      = Except.ok ⟨some (JNode.mk false (some "42") []), some "f", true⟩ ∧
    (JNode.mk false (some "42") []).isObject = false :=
  ⟨rfl, rfl⟩

/-- C9: when every step of tp_set succeeds up to and including the rename
but the post-rename reopen of the store's file fails, tp_set reports an
IoError, yet the store's file already holds the complete serialization of
the updated tree (and the temp file is gone) — the durable write is not
undone. -/
theorem c9_reopen_failure_keeps_durable_write (h : TpHandle) (d : Disk)
    (key value : String) (r c : JNode) (fn : String)
    (hr : h.root = some r) (hf : h.filename = some fn) (hs : segs key ≠ [])
    (hres : objPathTo r (segs key) = some c) (hobj : c.isObject = false) :
    (tp_set h d key value SetEnv.reopenFail).ret = Except.error TpErr.ioError ∧
    (tp_set h d key value SetEnv.reopenFail).dOut.main
      = jsonPrint (setValueAt r (segs key) (some value)) ∧
    (tp_set h d key value SetEnv.reopenFail).dOut.temp = none := by
  rw [tp_set_reopenFail_strict h d key value r c fn hr hf hs hres hobj]
  exact ⟨rfl, rfl, rfl⟩

/-- C9 witness: on the spec's example store with the reopen failing,
setting "system.audio.volume" to "75" reports an error while the disk holds
the new serialization. -/
theorem c9_witness :
    (tp_set hB dB "system.audio.volume" "75" SetEnv.reopenFail).ret
      = Except.error TpErr.ioError ∧
    (tp_set hB dB "system.audio.volume" "75" SetEnv.reopenFail).dOut.main
      = jsonPrint (setValueAt treeNested (segs "system.audio.volume") (some "75")) ∧
    (tp_set hB dB "system.audio.volume" "75" SetEnv.reopenFail).dOut.temp = none :=
  c9_reopen_failure_keeps_durable_write hB dB "system.audio.volume" "75" treeNested
    (JNode.mk false (some "50") []) "cfg.json" rfl rfl (by decide) rfl rfl

/-- C10 (amended): for two keys that both contain a dot, tp_get and tp_set
depend only on the nonempty-segment lists (strtok drops empty segments), so
two dotted keys with the same segments — e.g. "system..audio.volume" and
"system.audio.volume" — behave identically on every store, disk and
environment.  (A dotted key whose segments reduce to a *single* name, such
as ".a", still takes the multi-level branch, which unlike the single-level
branch rejects an object-typed target, so it is not always interchangeable
with the dot-free key.) -/
theorem c10_dotted_behaviour_depends_only_on_segments (h : TpHandle) (d : Disk)
    (key key2 value : String) (eg : GetEnv) (es : SetEnv)
    (hd1 : hasDot key = true) (hd2 : hasDot key2 = true)
    (hseg : segs key = segs key2) :
    tp_get h key eg = tp_get h key2 eg ∧
    tp_set h d key value es = tp_set h d key2 value es := by
  have hgr : ∀ r : JNode, getResolve r key = getResolve r key2 := by
    intro r
    cases hsg : segs key with
    | nil =>
      rw [getResolve_dot_nil r key hd1 hsg,
        getResolve_dot_nil r key2 hd2 (hseg ▸ hsg)]
    | cons t rest =>
      rw [getResolve_dot r key t rest hd1 hsg,
        getResolve_dot r key2 t rest hd2 (hseg ▸ hsg)]
  have hsp : ∀ r : JNode, setFindPath r key = setFindPath r key2 := by
    intro r
    cases hsg : segs key with
    | nil =>
      rw [setFindPath_dot_nil r key hd1 hsg,
        setFindPath_dot_nil r key2 hd2 (hseg ▸ hsg)]
    | cons t rest =>
      rw [setFindPath_dot r key t rest hd1 hsg,
        setFindPath_dot r key2 t rest hd2 (hseg ▸ hsg)]
  constructor
  · cases hr : h.root with
    | none => simp [tp_get, hr]
    | some r => simp [tp_get, hr, hgr r]
  · cases hf : h.filename with
    | none => simp [tp_set, hf]
    | some fn =>
      cases hr : h.root with
      | none => simp [tp_set, hf, hr]
      | some r => simp [tp_set, hf, hr, hsp r]

/-- C10 witness: "system..audio.volume" (empty segment) and
"system.audio.volume" behave identically for get and set on the spec's
example store. -/
theorem c10_witness :
    tp_get hB "system..audio.volume" GetEnv.allOk
      = tp_get hB "system.audio.volume" GetEnv.allOk ∧
    tp_set hB dB "system..audio.volume" "75" SetEnv.allOk
      = tp_set hB dB "system.audio.volume" "75" SetEnv.allOk :=
  c10_dotted_behaviour_depends_only_on_segments hB dB "system..audio.volume"
    "system.audio.volume" "75" GetEnv.allOk SetEnv.allOk rfl rfl rfl

/-- C10 counterexample: the claim says a key with empty segments behaves
exactly as the key with those segments removed; but on the store
`{"a":{}}`, tp_set with ".a" (segments reduce to "a") fails with
KeyNotFound while tp_set with "a" succeeds — the two keys differ. -/
theorem c10_counterexample :
    segs ".a" = segs "a" ∧
    (tp_set hObjA dA ".a" "v" SetEnv.allOk).ret = Except.error TpErr.keyNotFound ∧
    (tp_set hObjA dA "a" "v" SetEnv.allOk).ret = Except.ok () :=
  ⟨rfl, rfl, rfl⟩
